import Mathlib

/-!
Verification of the MultiLingualAudioPipeline repository.

Shallow embedding of the Python sources:
  * `src/process_a.py`            — batch `AudioProcessor` (transcribe / translate / synthesize)
  * `src/lambda_src/handler.py`   — S3-triggered lambda pipeline
  * `src/scripts/process_audio.py`— CLI pipeline variant
  * `src/terraform/modules/lambda/code/lambda_function.py` — terraform lambda variant

Strings are modelled as `String` / `List Char` (Python `str` is a sequence of
code points, `len` counts code points); UTF-8 byte counts are modelled
explicitly via `charUtf8Size`.
-/

namespace MLAP

/-- UTF-8 encoded size in bytes of one code point; models Python
`len(c.encode('utf-8'))` for a 1-character string `c`. -/
def charUtf8Size (c : Char) : Nat :=
  if c.val < 0x80 then 1
  else if c.val < 0x800 then 2
  else if c.val < 0x10000 then 3
  else 4

/-- UTF-8 encoded byte length of a text; models Python `len(s.encode('utf-8'))`. -/
def utf8Len (cs : List Char) : Nat := (cs.map charUtf8Size).sum

/-- One left-to-right pass marking sentence boundaries with `'|'`.
Models the three sequential Python calls
`text.replace('. ', '.|').replace('? ', '?|').replace('! ', '!|')`
(`src/process_a.py` lines 160/232, `src/scripts/process_audio.py` line 99).
The three patterns have pairwise distinct first characters, a replacement
never creates nor destroys an occurrence of another pattern (`'|'` is neither
punctuation nor a space), so the sequential replaces equal this single pass. -/
def markBreaks : List Char → List Char
  | [] => []
  | [c] => [c]
  | c1 :: c2 :: rest =>
    if (c1 = '.' ∨ c1 = '?' ∨ c1 = '!') ∧ c2 = ' ' then
      c1 :: '|' :: markBreaks rest
    else
      c1 :: markBreaks (c2 :: rest)

/-- Python `s.split('|')`: always at least one (possibly empty) field. -/
def splitOnBar : List Char → List (List Char)
  | [] => [[]]
  | c :: rest =>
    if c = '|' then [] :: splitOnBar rest
    else
      match splitOnBar rest with
      | [] => [[c]]
      | s :: ss => (c :: s) :: ss

/-- The sentence units the chunkers iterate over:
`sentences = text.replace('. ', '.|').replace('? ', '?|').replace('! ', '!|').split('|')`. -/
def sentenceUnits (text : List Char) : List (List Char) :=
  splitOnBar (markBreaks text)

/-- The greedy accumulation loop shared by `AudioProcessor.translate_text`
(`src/process_a.py` lines 157-181) and `AudioProcessor.synthesize_speech`
(lines 232-244): `cur` is `current_chunk`, `acc` the chunks closed so far.

```
for sentence in sentences:
    if len(current_chunk) + len(sentence) < max_length:
        current_chunk += sentence
    else:
        if current_chunk:
            chunks.append(current_chunk)
        current_chunk = sentence
if current_chunk:
    chunks.append(current_chunk)
```
-/
def chunkLoop (maxLength : Nat) : List (List Char) → List Char → List (List Char) → List (List Char)
  | [], cur, acc => if cur = [] then acc else acc ++ [cur]
  | s :: ss, cur, acc =>
    if cur.length + s.length < maxLength then
      chunkLoop maxLength ss (cur ++ s) acc
    else
      chunkLoop maxLength ss s (if cur = [] then acc else acc ++ [cur])

/-- The chunk sequence built by the `else` (long-text) branch of
`AudioProcessor.translate_text` / `AudioProcessor.synthesize_speech` in
`src/process_a.py`: sizes are measured with Python `len`, i.e. in characters. -/
def splitChunks (text : List Char) (maxLength : Nat) : List (List Char) :=
  chunkLoop maxLength (sentenceUnits text) [] []

/-- Python `' '.join(chunks)` (`src/process_a.py` line 183). -/
def joinSp (chunks : List (List Char)) : List Char :=
  List.intercalate [' '] chunks

/-- Texts passed to `translate_client.translate_text` by
`AudioProcessor.translate_text` (`src/process_a.py` lines 147-183): one call
with the whole text when `len(text) <= max_length`, otherwise one call per
chunk of the greedy splitter (the loop translates exactly the chunks it
closes, plus the final chunk). -/
def translate_text_calls (text : List Char) (maxLength : Nat) : List (List Char) :=
  if text.length ≤ maxLength then [text] else splitChunks text maxLength

/-- Result of `AudioProcessor.translate_text` given a per-chunk translation
oracle `tr` (`src/process_a.py` lines 147-183). -/
def translate_text (tr : List Char → List Char) (text : List Char) (maxLength : Nat) : List Char :=
  if text.length ≤ maxLength then tr text
  else joinSp ((splitChunks text maxLength).map tr)

/-- `text_chunks` of `AudioProcessor.synthesize_speech`
(`src/process_a.py` lines 227-244): `[text]` when `len(text) <= max_length`,
otherwise the greedy chunks; one Polly call is issued per entry. -/
def synthesize_text_chunks (text : List Char) (maxLength : Nat) : List (List Char) :=
  if text.length ≤ maxLength then [text] else splitChunks text maxLength

/-- The hard-coded language→voice table of `AudioProcessor.synthesize_speech`
(`src/process_a.py` lines 202-217). -/
def voice_mapping : List (String × String) :=
  [("es", "Lucia"), ("fr", "Celine"), ("de", "Marlene"), ("it", "Carla"),
   ("pt", "Ines"), ("ja", "Mizuki"), ("ko", "Seoyeon"), ("zh", "Zhiyu"),
   ("ar", "Zeina"), ("hi", "Aditi"), ("ru", "Tatyana"), ("nl", "Lotte"),
   ("pl", "Ewa"), ("tr", "Filiz")]

/-- `voice_id = voice_mapping.get(self.target_language, 'Joanna')`
(`src/process_a.py` line 219): an unmapped language falls back to `'Joanna'`. -/
def processA_voiceId (lang : String) : String :=
  (voice_mapping.lookup lang).getD "Joanna"

/-- The (text, voice) pairs sent to Polly by `AudioProcessor.synthesize_speech`
(`src/process_a.py` lines 247-253): one call per text chunk, all with the
voice resolved by `processA_voiceId`. -/
def synthesize_speech_calls (text : List Char) (lang : String) : List (List Char × String) :=
  (synthesize_text_chunks text 3000).map (fun c => (c, processA_voiceId lang))

/-! ### Transcription wait loops -/

/-- Outcome of the bounded polling loop of `AudioProcessor.transcribe_audio`. -/
inductive WaitOutcome where
  | completed (pollIdx : Nat)
  | failed (pollIdx : Nat)
  | timedOut
deriving DecidableEq

/-- The bounded polling loop of `AudioProcessor.transcribe_audio`
(`src/process_a.py` lines 89-118): `max_tries = 60`, decremented before each
poll; on `COMPLETED` the transcript is fetched, on `FAILED` an exception is
raised, and when the tries run out `Exception("Transcription job timed out")`
is raised. `status i` is the job status reported by the `i`-th
`get_transcription_job` call. -/
def waitLoopA (status : Nat → String) : Nat → Nat → WaitOutcome
  | 0, _ => .timedOut
  | fuel + 1, i =>
    if status i = "COMPLETED" then .completed i
    else if status i = "FAILED" then .failed i
    else waitLoopA status fuel (i + 1)

/-- `AudioProcessor.transcribe_audio`'s wait phase with its hard-coded
`max_tries = 60` (`src/process_a.py` line 90). -/
def transcribe_wait (status : Nat → String) : WaitOutcome :=
  waitLoopA status 60 0

/-- The unbounded `while True` polling loop of `wait_for_transcription`
(`src/lambda_src/handler.py` lines 51-59), observed through `fuel` loop
iterations: `some (st, i)` means the loop returned the terminal status `st`
at poll `i`; `none` means that after `fuel` polls the loop is still running
(the source has no poll cap at all). -/
def wait_for_transcription (status : Nat → String) : Nat → Nat → Option (String × Nat)
  | 0, _ => none
  | fuel + 1, i =>
    if status i = "COMPLETED" ∨ status i = "FAILED" then some (status i, i)
    else wait_for_transcription status fuel (i + 1)

/-- The unbounded `while True` polling loop of the terraform module's
`lambda_handler` (`src/terraform/modules/lambda/code/lambda_function.py`
lines 35-40), observed through `fuel` iterations, same reading as
`wait_for_transcription`. -/
def tf_wait_loop (status : Nat → String) : Nat → Nat → Option (String × Nat)
  | 0, _ => none
  | fuel + 1, i =>
    if status i = "COMPLETED" ∨ status i = "FAILED" then some (status i, i)
    else tf_wait_loop status fuel (i + 1)

/-! ### Transcript result documents -/

/-- JSON values, for the transcription result document. -/
inductive Json where
  | null : Json
  | str : String → Json
  | num : Int → Json
  | arr : List Json → Json
  | obj : List (String × Json) → Json

/-- Python `dict` subscription `d[k]` on a JSON object (first binding wins),
`None`-free failure modelled as `Option`. -/
def Json.getField : Json → String → Option Json
  | .obj fields, k => fields.lookup k
  | _, _ => none

/-- Python list subscription `xs[i]` on a JSON array. -/
def Json.getIdx : Json → Nat → Option Json
  | .arr xs, i => xs.get? i
  | _, _ => none

/-- `download_transcript` (`src/lambda_src/handler.py` lines 61-66): fetch
the result document, parse it as JSON and index
`data['results']['transcripts'][0]['transcript']`; any missing key/index
raises (modelled as `none`). The same extraction appears in
`src/process_a.py` lines 104-106 and `src/scripts/process_audio.py`
lines 70-72. -/
def download_transcript (doc : Json) : Option Json := do
  let r ← doc.getField "results"
  let ts ← r.getField "transcripts"
  let t0 ← ts.getIdx 0
  t0.getField "transcript"

mutual

/-- Rendering of a JSON value back to its document text (the terraform
lambda consumes this raw text rather than a parsed field). -/
def Json.render : Json → String
  | .null => "null"
  | .str s => "\"" ++ s ++ "\""
  | .num n => toString n
  | .arr xs => "[" ++ Json.renderList xs ++ "]"
  | .obj fs => "\x7b" ++ Json.renderObj fs ++ "\x7d"

def Json.renderList : List Json → String
  | [] => ""
  | [x] => Json.render x
  | x :: xs => Json.render x ++ ", " ++ Json.renderList xs

def Json.renderObj : List (String × Json) → String
  | [] => ""
  | [(k, v)] => "\"" ++ k ++ "\": " ++ Json.render v
  | (k, v) :: fs => "\"" ++ k ++ "\": " ++ Json.render v ++ ", " ++ Json.renderObj fs

end

/-- The terraform lambda's transcript step
(`src/terraform/modules/lambda/code/lambda_function.py` lines 45-49):
`transcript_text = s3.get_object(...)['Body'].read().decode('utf-8')` — the
raw stored result document text, with no JSON parsing or field extraction. -/
def tf_transcript_text (rawDoc : String) : String := rawDoc

/-! ### Environment tag resolution (`src/lambda_src/handler.py` lines 22-36) -/

/-- The fallback chain after the `try` block of `get_metadata_env`:
`if key.startswith("audio_inputs/beta-"): return "beta"; return ENV_PREFIX`. -/
def metadata_env_fallback (key envPrefix : String) : String :=
  if key.startsWith "audio_inputs/beta-" then "beta" else envPrefix

/-- `get_metadata_env(bucket, key)` (`src/lambda_src/handler.py` lines 22-36).
`head` is the outcome of the `s3.head_object` call: `.error` when it raises
(the exception is swallowed), `.ok metadata` otherwise. The code does
`env = metadata.get('env'); if env: return env` — Python truthiness, so a
present but *empty* value also falls through to the fallback chain. -/
def get_metadata_env (head : Except String (List (String × String)))
    (key envPrefix : String) : String :=
  match head with
  | .ok metadata =>
    match metadata.lookup "env" with
    | some env => if env = "" then metadata_env_fallback key envPrefix else env
    | none => metadata_env_fallback key envPrefix
  | .error _ => metadata_env_fallback key envPrefix

/-! ### The S3-triggered lambda pipeline (`src/lambda_src/handler.py`) -/

/-- Hexadecimal digit value, as accepted by Python's percent-decoder. -/
def hexVal (c : Char) : Option Nat :=
  if '0' ≤ c ∧ c ≤ '9' then some (c.toNat - '0'.toNat)
  else if 'a' ≤ c ∧ c ≤ 'f' then some (c.toNat - 'a'.toNat + 10)
  else if 'A' ≤ c ∧ c ≤ 'F' then some (c.toNat - 'A'.toNat + 10)
  else none

/-- `urllib.parse.unquote_plus` (`src/lambda_src/handler.py` line 81):
`'+'` becomes a space and `%XX` is percent-decoded; a malformed escape is
kept verbatim. (Python recombines consecutive decoded bytes into UTF-8
characters; this model is exact on single-byte escapes, which is all the
`.mp3` suffix check depends on.) -/
def unquotePlus : List Char → List Char
  | [] => []
  | '+' :: rest => ' ' :: unquotePlus rest
  | '%' :: h1 :: h2 :: rest =>
    match hexVal h1, hexVal h2 with
    | some a, some b => Char.ofNat (16 * a + b) :: unquotePlus rest
    | _, _ => '%' :: unquotePlus (h1 :: h2 :: rest)
  | c :: rest => c :: unquotePlus rest

def unquotePlusStr (s : String) : String := String.mk (unquotePlus s.toList)

/-- `key.lower().endswith('.mp3')` (`src/lambda_src/handler.py` line 82). -/
def endsWithMp3 (key : String) : Bool :=
  List.isSuffixOf (String.toList ".mp3") (key.toList.map Char.toLower)

/-- `os.path.basename`: everything after the last `'/'`. -/
def basename (p : String) : String :=
  String.mk ((p.toList.reverse.takeWhile (fun c => c ≠ '/')).reverse)

/-- `os.path.splitext(name)[0]`: drop the last-dot extension, where a run of
leading dots never starts an extension (`.bashrc` has none). -/
def splitextStem (name : String) : String :=
  let cs := name.toList
  let lead := cs.takeWhile (fun c => c = '.')
  let rest := cs.drop lead.length
  if rest.contains '.' then
    String.mk (lead ++ ((rest.reverse.dropWhile (fun c => c ≠ '.')).drop 1).reverse)
  else name

/-- `base_filename = os.path.splitext(os.path.basename(key))[0]`
(`src/lambda_src/handler.py` line 87). -/
def baseFilename (key : String) : String := splitextStem (basename key)

/-- Observable side effects of one handler run (blob-store writes and
provider calls). -/
inductive Effect where
  | startJob (jobName outputKey : String)
  | put (bucket key body : String)
  | translateCall (text lang : String)
  | pollyCall (text lang voice : String)
deriving DecidableEq

/-- `return {"statusCode": ..., "body": ...}`. -/
structure HandlerResult where
  statusCode : Nat
  body : String
deriving DecidableEq

/-- The handler's environment-derived configuration
(`src/lambda_src/handler.py` lines 17-20). -/
structure HandlerEnv where
  outputBucket : String
  targetLanguages : List String
  voiceMapping : List (String × String)
  envPrefix : String

/-- Behaviour of the external collaborators during one run. `status i` is
the `i`-th polled job status; `translateResult text lang` and
`pollyResult text voice` are `.error` when the AWS call raises. -/
structure World where
  headEnv : Except String (List (String × String))
  status : Nat → String
  failureReason : String
  transcriptDoc : Json
  translateResult : String → String → Except String String
  pollyResult : String → String → Except String String
  uuidHex : String

/-- One iteration of the per-language loop (`src/lambda_src/handler.py`
lines 108-122): translate, upload the translation, then either skip Polly
when `VOICE_MAPPING.get(lang)` is missing/empty (`if not voice_id: continue`)
or synthesize and upload the audio. Returns the effects performed and
`some e` when an uncaught exception aborts the iteration (the loop has no
`try`/`except`). -/
def processLanguage (cfg : HandlerEnv) (w : World) (env base transcript lang : String) :
    List Effect × Option String :=
  match w.translateResult transcript lang with
  | .error e => ([.translateCall transcript lang], some e)
  | .ok translated =>
    let tEffs : List Effect :=
      [.translateCall transcript lang,
       .put cfg.outputBucket (env ++ "/translations/" ++ base ++ "_" ++ lang ++ ".txt") translated]
    match cfg.voiceMapping.lookup lang with
    | none => (tEffs, none)
    | some voice =>
      if voice = "" then (tEffs, none)
      else
        match w.pollyResult translated voice with
        | .error e => (tEffs ++ [.pollyCall translated lang voice], some e)
        | .ok audio =>
          (tEffs ++ [.pollyCall translated lang voice,
                     .put cfg.outputBucket
                       (env ++ "/audio_outputs/" ++ base ++ "_" ++ lang ++ ".mp3") audio], none)

/-- `for lang in TARGET_LANGUAGES: ...` (`src/lambda_src/handler.py`
lines 108-122): an exception from one iteration propagates immediately,
so later languages are not reached. -/
def processLanguages (cfg : HandlerEnv) (w : World) (env base transcript : String) :
    List String → List Effect × Option String
  | [] => ([], none)
  | lang :: rest =>
    match processLanguage cfg w env base transcript lang with
    | (effs, some e) => (effs, some e)
    | (effs, none) =>
      let r := processLanguages cfg w env base transcript rest
      (effs ++ r.1, r.2)

/-- `lambda_handler` (`src/lambda_src/handler.py` lines 77-127) on the first
record's object key, returning the effects performed and the result
(`.error` for an uncaught exception). `none` means the unbounded wait loop
has not finished within `fuel` polls. -/
def lambda_handler (cfg : HandlerEnv) (w : World) (recordKey : String) (fuel : Nat) :
    Option (List Effect × Except String HandlerResult) :=
  let key := unquotePlusStr recordKey
  if endsWithMp3 key = false then
    some ([], .ok ⟨200, "Skipped non-mp3"⟩)
  else
    let env := get_metadata_env w.headEnv key cfg.envPrefix
    let base := baseFilename key
    let jobName := env ++ "-" ++ base ++ "-" ++ w.uuidHex
    let startEff : Effect := .startJob jobName (env ++ "/transcripts/" ++ jobName ++ ".json")
    match wait_for_transcription w.status fuel 0 with
    | none => none
    | some (st, _) =>
      if st = "FAILED" then
        some ([startEff], .error ("Transcription failed: " ++ w.failureReason))
      else
        match download_transcript w.transcriptDoc with
        | some (Json.str transcript) =>
          let tEff : Effect :=
            .put cfg.outputBucket (env ++ "/transcripts/" ++ base ++ ".txt") transcript
          let r := processLanguages cfg w env base transcript cfg.targetLanguages
          match r.2 with
          | some e => some (startEff :: tEff :: r.1, .error e)
          | none =>
            some (startEff :: tEff :: r.1,
                  .ok ⟨200, "Processed file " ++ key ++ " in env " ++ env⟩)
        | _ => some ([startEff], .error "ResultParseError")

/-- Keys written by `AudioProcessor.process_file` (`src/process_a.py`
lines 287, 296, 309, 322): note the absence of any environment prefix. -/
def processFile_transcript_key (stem : String) : String :=
  "transcripts/" ++ stem ++ ".txt"

def processFile_translation_key (stem lang : String) : String :=
  "translations/" ++ stem ++ "_" ++ lang ++ ".txt"

def processFile_audio_key (stem lang : String) : String :=
  "audio_outputs/" ++ stem ++ "_" ++ lang ++ ".mp3"

/-! ### Concrete fixtures used by witnesses and counterexamples -/

/-- A well-formed transcription result document whose transcript field is
`"hi"`. -/
def sampleDoc : Json :=
  Json.obj [("results",
    Json.obj [("transcripts", Json.arr [Json.obj [("transcript", Json.str "hi")]])])]

/-- Handler configuration used in concrete runs. -/
def cfgTest : HandlerEnv :=
  { outputBucket := "out-bucket"
    targetLanguages := ["es", "fr"]
    voiceMapping := [("es", "Lucia"), ("fr", "Celine")]
    envPrefix := "prod" }

/-- A world where everything succeeds. -/
def wOk : World :=
  { headEnv := .ok [("env", "testenv")]
    status := fun _ => "COMPLETED"
    failureReason := ""
    transcriptDoc := sampleDoc
    translateResult := fun _ _ => .ok "hola"
    pollyResult := fun _ _ => .ok "AUDIO"
    uuidHex := "abcd1234" }

/-- A world where the translation call raises for target language `"es"`
and succeeds for every other language. -/
def wFailEs : World :=
  { headEnv := .ok [("env", "testenv")]
    status := fun _ => "COMPLETED"
    failureReason := ""
    transcriptDoc := sampleDoc
    translateResult := fun _ lang => if lang = "es" then .error "TranslateError" else .ok "bonjour"
    pollyResult := fun _ _ => .ok "AUDIO"
    uuidHex := "abcd1234" }

/-! ### C1: chunk size bound -/

/-- Invariant of the greedy accumulation loop: every emitted chunk is within
the `len` (character-count) limit, except a chunk that is a single sentence
unit longer than the limit. -/
theorem chunkLoop_length_bound (L : Nat) (U : List (List Char)) :
    ∀ (ss : List (List Char)) (cur : List Char) (acc : List (List Char)),
      (∀ c ∈ acc, c.length ≤ L ∨ (c ∈ U ∧ L < c.length)) →
      (cur.length ≤ L ∨ (cur ∈ U ∧ L < cur.length)) →
      (∀ s ∈ ss, s ∈ U) →
      ∀ c ∈ chunkLoop L ss cur acc, c.length ≤ L ∨ (c ∈ U ∧ L < c.length) := by
  intro ss
  induction ss with
  | nil =>
    intro cur acc hacc hcur _ c hc
    simp only [chunkLoop] at hc
    split at hc
    · exact hacc c hc
    · rcases List.mem_append.1 hc with h | h
      · exact hacc c h
      · rw [List.mem_singleton] at h
        subst h
        exact hcur
  | cons s ss ih =>
    intro cur acc hacc hcur hss c hc
    simp only [chunkLoop] at hc
    split at hc
    · next hlt =>
      refine ih (cur ++ s) acc hacc ?_ (fun u hu => hss u (List.mem_cons_of_mem _ hu)) c hc
      left
      rw [List.length_append]
      omega
    · next hge =>
      refine ih s _ ?_ ?_ (fun u hu => hss u (List.mem_cons_of_mem _ hu)) c hc
      · intro d hd
        split at hd
        · exact hacc d hd
        · rcases List.mem_append.1 hd with h | h
          · exact hacc d h
          · rw [List.mem_singleton] at h
            subst h
            exact hcur
      · by_cases hsl : s.length ≤ L
        · exact Or.inl hsl
        · exact Or.inr ⟨hss s (List.mem_cons_self _ _), by omega⟩

/-- C1 (amended): for every text and every limit L > 0, the greedy splitter
of `AudioProcessor.translate_text` / `synthesize_speech` accumulates sentence
units measured by Python `len` — i.e. in characters, not UTF-8 bytes — and
every chunk it produces has character length ≤ L, except a chunk consisting
of a single sentence unit that is itself longer than L, which is emitted
whole as one oversized chunk. -/
theorem chunk_split_char_bound (text : List Char) (L : Nat) (_h : 0 < L) :
    ∀ c ∈ splitChunks text L,
      c.length ≤ L ∨ (c ∈ sentenceUnits text ∧ L < c.length) :=
  chunkLoop_length_bound L (sentenceUnits text) (sentenceUnits text) [] []
    (fun c hc => absurd hc (List.not_mem_nil c))
    (Or.inl (Nat.zero_le L))
    (fun _ hs => hs)

/-- Witness for `chunk_split_char_bound` at the concrete text
`"Hello. How are you? Fine!"`, L = 15 and chunk `"Hello."`. -/
theorem chunk_split_char_bound_witness :
    (String.toList "Hello.").length ≤ 15 ∨
      (String.toList "Hello." ∈ sentenceUnits (String.toList "Hello. How are you? Fine!") ∧
        15 < (String.toList "Hello.").length) :=
  chunk_split_char_bound (String.toList "Hello. How are you? Fine!") 15 (by decide)
    (String.toList "Hello.") (by decide)

/-- C1 (counterexample): the multi-byte text `"éé. éé. xxxx"` has 12 > 7
characters, so `translate_text` at limit 7 does reach its chunking path, and
the splitter emits the chunk `"éé.éé."` of UTF-8 byte length 10 > 7 (its
`len` is 6 < 7) — a chunk that is not a single sentence unit. The
byte-length bound stated by the claim therefore fails on the code, which
measures `len`, i.e. characters. -/
theorem chunk_split_byte_bound_fails :
    translate_text_calls (String.toList "éé. éé. xxxx") 7 =
      splitChunks (String.toList "éé. éé. xxxx") 7 ∧
    ∃ c ∈ splitChunks (String.toList "éé. éé. xxxx") 7,
      7 < utf8Len c ∧ c ∉ sentenceUnits (String.toList "éé. éé. xxxx") := by decide

/-! ### C4: concrete split/join scenario -/

/-- C4: splitting `"Hello. How are you? Fine!"` at limit 15 yields exactly
`["Hello.", "How are you?", "Fine!"]`, and `' '.join` of
`["Hola.", "Cómo estás?", "Bien!"]` is `"Hola. Cómo estás? Bien!"`. -/
theorem split_join_scenario :
    splitChunks (String.toList "Hello. How are you? Fine!") 15 =
      [String.toList "Hello.", String.toList "How are you?", String.toList "Fine!"] ∧
    joinSp [String.toList "Hola.", String.toList "Cómo estás?", String.toList "Bien!"] =
      String.toList "Hola. Cómo estás? Bien!" := by decide

/-! ### C5: empty input -/

/-- C5 (amended): the greedy splitter on the empty text yields zero chunks
for any L > 0, but `AudioProcessor.translate_text` and `synthesize_speech`
never reach the splitter for empty input: `len("") <= max_length` routes to
the single-call path, so exactly one provider call carrying the empty string
is issued, not zero. -/
theorem empty_text_split_empty (L : Nat) (_h : 0 < L) :
    splitChunks [] L = [] ∧ translate_text_calls [] L = [[]] ∧
      synthesize_text_chunks [] L = [[]] := by
  refine ⟨?_, ?_, ?_⟩
  · simp [splitChunks, sentenceUnits, markBreaks, splitOnBar, chunkLoop]
  · simp [translate_text_calls]
  · simp [synthesize_text_chunks]

/-- Witness for `empty_text_split_empty` at L = 7. -/
theorem empty_text_split_empty_witness :
    splitChunks [] 7 = [] ∧ translate_text_calls [] 7 = [[]] ∧
      synthesize_text_chunks [] 7 = [[]] :=
  empty_text_split_empty 7 (by decide)

/-- C5 (counterexample): at the source limits (10000 for Translate, 3000 for
Polly), the empty text produces exactly one provider call each — the call
list is `[""]`, not `[]`. -/
theorem empty_text_one_provider_call :
    translate_text_calls [] 10000 = [[]] ∧
    synthesize_text_chunks [] 3000 = [[]] ∧
    translate_text_calls [] 10000 ≠ [] := by decide

/-! ### C2: the per-language loop is not exception-isolated -/

/-- C2 (amended): the per-language loop of `lambda_handler` has no
`try`/`except` — an exception raised while processing one target language
propagates out of the loop immediately, so no subsequent target language in
the list is translated or synthesized; only the missing-voice case is a
`continue`-style skip. -/
theorem processLanguages_error_propagates (cfg : HandlerEnv) (w : World)
    (env base transcript lang : String) (rest : List String)
    (effs : List Effect) (e : String)
    (h : processLanguage cfg w env base transcript lang = (effs, some e)) :
    processLanguages cfg w env base transcript (lang :: rest) = (effs, some e) := by
  simp only [processLanguages, h]

/-- Witness for `processLanguages_error_propagates`: the `"es"` translation
failure aborts the whole loop before `"fr"` is reached. -/
theorem processLanguages_error_propagates_witness :
    processLanguages cfgTest wFailEs "prod" "file" "hello" ["es", "fr"] =
      ([Effect.translateCall "hello" "es"], some "TranslateError") :=
  processLanguages_error_propagates cfgTest wFailEs "prod" "file" "hello" "es" ["fr"]
    [Effect.translateCall "hello" "es"] "TranslateError" rfl

/-- C2 (counterexample): with targets `["es", "fr"]` and a translation
failure for `"es"`, the loop stops with the propagated error and produces no
effect at all for `"fr"`, although `"fr"` alone would fully succeed — the
failure of one language does prevent the processing of subsequent ones. -/
theorem language_fanout_not_isolated :
    processLanguages cfgTest wFailEs "prod" "file" "hello" ["es", "fr"] =
      ([Effect.translateCall "hello" "es"], some "TranslateError") ∧
    processLanguages cfgTest wFailEs "prod" "file" "hello" ["fr"] =
      ([Effect.translateCall "hello" "fr",
        Effect.put "out-bucket" "prod/translations/file_fr.txt" "bonjour",
        Effect.pollyCall "bonjour" "fr" "Celine",
        Effect.put "out-bucket" "prod/audio_outputs/file_fr.mp3" "AUDIO"], none) := by
  exact ⟨rfl, rfl⟩

/-! ### C3: polling bounds -/

/-- The bounded loop never inspects the status beyond its fuel window. -/
theorem waitLoopA_congr (s₁ s₂ : Nat → String) :
    ∀ (fuel i : Nat), (∀ j, i ≤ j → j < i + fuel → s₁ j = s₂ j) →
      waitLoopA s₁ fuel i = waitLoopA s₂ fuel i := by
  intro fuel
  induction fuel with
  | zero => intro i _; rfl
  | succ n ih =>
    intro i hj
    have h0 : s₁ i = s₂ i := hj i (Nat.le_refl i) (by omega)
    simp only [waitLoopA, h0]
    split
    · rfl
    · split
      · rfl
      · exact ih (i + 1) (fun j h1 h2 => hj j (by omega) (by omega))

/-- If no poll in the fuel window is terminal, the bounded loop times out. -/
theorem waitLoopA_timedOut (status : Nat → String) :
    ∀ (fuel i : Nat),
      (∀ j, i ≤ j → j < i + fuel → status j ≠ "COMPLETED" ∧ status j ≠ "FAILED") →
      waitLoopA status fuel i = .timedOut := by
  intro fuel
  induction fuel with
  | zero => intro i _; rfl
  | succ n ih =>
    intro i hj
    have h0 := hj i (Nat.le_refl i) (by omega)
    simp only [waitLoopA, if_neg h0.1, if_neg h0.2]
    exact ih (i + 1) (fun j h1 h2 => hj j (by omega) (by omega))

/-- The handler's `while True` wait loop never stops while the status stays
`"IN_PROGRESS"`, whatever the number of polls observed. -/
theorem wait_for_transcription_in_progress_none :
    ∀ (fuel i : Nat), wait_for_transcription (fun _ => "IN_PROGRESS") fuel i = none := by
  intro fuel
  induction fuel with
  | zero => intro i; rfl
  | succ n ih =>
    intro i
    simp only [wait_for_transcription]
    rw [if_neg]
    · exact ih (i + 1)
    · rintro (h | h) <;> simp at h

/-- Same for the terraform module's `while True` wait loop. -/
theorem tf_wait_loop_in_progress_none :
    ∀ (fuel i : Nat), tf_wait_loop (fun _ => "IN_PROGRESS") fuel i = none := by
  intro fuel
  induction fuel with
  | zero => intro i; rfl
  | succ n ih =>
    intro i
    simp only [tf_wait_loop]
    rw [if_neg]
    · exact ih (i + 1)
    · rintro (h | h) <;> simp at h

/-- C3 (amended): only `AudioProcessor.transcribe_audio` bounds its polling:
if none of the first 60 polled statuses is terminal it stops with the
timeout outcome, and the outcome never depends on polls beyond the 60th.
The wait loops of `src/lambda_src/handler.py` and of the terraform module
are unbounded `while True` loops: on a permanently `IN_PROGRESS` job they
are still polling after any number of iterations and never produce a
timed-out outcome. -/
theorem transcribe_wait_timeout (status : Nat → String)
    (h : ∀ i, i < 60 → status i ≠ "COMPLETED" ∧ status i ≠ "FAILED") :
    transcribe_wait status = .timedOut ∧
    (∀ s₂ : Nat → String, (∀ i, i < 60 → s₂ i = status i) →
      transcribe_wait s₂ = transcribe_wait status) ∧
    (∀ fuel i, wait_for_transcription (fun _ => "IN_PROGRESS") fuel i = none) ∧
    (∀ fuel i, tf_wait_loop (fun _ => "IN_PROGRESS") fuel i = none) := by
  refine ⟨?_, ?_, wait_for_transcription_in_progress_none, tf_wait_loop_in_progress_none⟩
  · exact waitLoopA_timedOut status 60 0 (fun j _ hj => h j (by omega))
  · intro s₂ hs
    exact waitLoopA_congr s₂ status 60 0 (fun j _ hj => hs j (by omega))

/-- Witness for `transcribe_wait_timeout`: a job that never leaves
`IN_PROGRESS` makes the bounded loop time out. -/
theorem transcribe_wait_timeout_witness :
    transcribe_wait (fun _ => "IN_PROGRESS") = .timedOut :=
  (transcribe_wait_timeout (fun _ => "IN_PROGRESS") (by decide)).1

/-- C3 (counterexample): on a job that never reaches a terminal state, the
handler's wait loop is still running after 61 polls — more than the
configured maximum of 60 — and has yielded no timed-out outcome, while the
claim requires termination with `TIMED_OUT` within 60 polls. -/
theorem handler_wait_loop_unbounded :
    wait_for_transcription (fun _ => "IN_PROGRESS") 61 0 = none ∧
    transcribe_wait (fun _ => "IN_PROGRESS") = .timedOut := by decide

/-! ### C6: missing voice mapping -/

/-- C6 (amended): in `lambda_handler`, a target language with no configured
voice still gets its translation uploaded and is then skipped for synthesis
with no Polly call and no error (so subsequent languages proceed); in
`AudioProcessor.synthesize_speech` however an unmapped language is *not*
skipped — it is synthesized with the substitute default voice `"Joanna"`. -/
theorem handler_no_voice_skip (cfg : HandlerEnv) (w : World)
    (env base transcript lang tr : String)
    (ht : w.translateResult transcript lang = .ok tr)
    (hv : cfg.voiceMapping.lookup lang = none) :
    processLanguage cfg w env base transcript lang =
      ([.translateCall transcript lang,
        .put cfg.outputBucket (env ++ "/translations/" ++ base ++ "_" ++ lang ++ ".txt") tr],
       none) := by
  simp only [processLanguage, ht, hv]

/-- Witness for `handler_no_voice_skip`: language `"de"` has no entry in
`cfgTest.voiceMapping`. -/
theorem handler_no_voice_skip_witness :
    processLanguage cfgTest wOk "prod" "file" "hello" "de" =
      ([Effect.translateCall "hello" "de",
        Effect.put cfgTest.outputBucket
          ("prod" ++ "/translations/" ++ "file" ++ "_" ++ "de" ++ ".txt") "hola"],
       none) :=
  handler_no_voice_skip cfgTest wOk "prod" "file" "hello" "de" "hola" rfl rfl

/-- C6 (counterexample): `AudioProcessor.synthesize_speech` resolves the
unmapped language `"sv"` to the substitute voice `"Joanna"` and issues a
synthesis call with it, instead of reporting a no-voice skip. -/
theorem processA_default_voice_joanna :
    processA_voiceId "sv" = "Joanna" ∧
    synthesize_speech_calls (String.toList "Hello") "sv" =
      [(String.toList "Hello", "Joanna")] := by decide

/-! ### C7: transcript extraction -/

/-- C7 (amended): `download_transcript` in `src/lambda_src/handler.py` (and
the identical extraction in both batch scripts) parses the result document
and returns exactly the `results.transcripts[0].transcript` field, for every
document of that shape; the terraform module's lambda, by contrast, uses the
raw result document text without parsing. -/
theorem download_transcript_extracts (t : Json) (restArr : List Json)
    (r1 r2 r3 : List (String × Json)) :
    download_transcript
      (Json.obj (("results",
        Json.obj (("transcripts",
          Json.arr (Json.obj (("transcript", t) :: r3) :: restArr)) :: r2)) :: r1)) =
      some t := by
  simp [download_transcript, Json.getField, Json.getIdx, List.lookup]

/-- C7 (counterexample): on the result document
`{"results": {"transcripts": [{"transcript": "hi"}]}}` the extraction yields
the field `"hi"`, but the terraform lambda's transcript step
(`lambda_function.py` lines 45-49) returns the raw document text, which is
not the field value — so the claim fails on that cited code path. -/
theorem tf_uses_raw_document :
    download_transcript sampleDoc = some (Json.str "hi") ∧
    tf_transcript_text (Json.render sampleDoc) = Json.render sampleDoc ∧
    Json.render sampleDoc ≠ "hi" := by
  refine ⟨rfl, rfl, ?_⟩
  decide

/-! ### C9: environment-tag resolution -/

/-- C9 (amended): `get_metadata_env` is total and never raises: it returns
the object's `env` metadata value when that value is present *and
non-empty*; otherwise — also when the metadata read raises, the exception
being swallowed — it falls back to `"beta"` for keys starting with
`"audio_inputs/beta-"` and to the configured default prefix else. A present
but empty `env` value is falsy in Python and falls through to the fallback
chain rather than being returned. -/
theorem get_metadata_env_spec (md : List (String × String))
    (e key envPrefix err : String) :
    (md.lookup "env" = some e → e ≠ "" →
      get_metadata_env (.ok md) key envPrefix = e) ∧
    (md.lookup "env" = some "" →
      get_metadata_env (.ok md) key envPrefix = metadata_env_fallback key envPrefix) ∧
    (md.lookup "env" = none →
      get_metadata_env (.ok md) key envPrefix = metadata_env_fallback key envPrefix) ∧
    (get_metadata_env (.error err) key envPrefix = metadata_env_fallback key envPrefix) ∧
    (key.startsWith "audio_inputs/beta-" = true →
      metadata_env_fallback key envPrefix = "beta") ∧
    (key.startsWith "audio_inputs/beta-" = false →
      metadata_env_fallback key envPrefix = envPrefix) := by
  refine ⟨?_, ?_, ?_, rfl, ?_, ?_⟩
  · intro h1 h2
    simp [get_metadata_env, h1, h2]
  · intro h1
    simp [get_metadata_env, h1]
  · intro h1
    simp [get_metadata_env, h1]
  · intro h1
    simp [metadata_env_fallback, h1]
  · intro h1
    simp [metadata_env_fallback, h1]

/-- Witness for `get_metadata_env_spec`: a present non-empty metadata value
wins over both fallbacks. -/
theorem get_metadata_env_spec_witness :
    get_metadata_env (.ok [("env", "testenv")]) "audio_inputs/beta-a.mp3" "prod" =
      "testenv" :=
  (get_metadata_env_spec [("env", "testenv")] "testenv" "audio_inputs/beta-a.mp3"
    "prod" "boom").1 rfl (by decide)

/-- C9 (counterexample): on an object whose metadata carries `env` with the
empty value, the code does not return that present value: Python truthiness
(`if env:`) sends it down the fallback chain and the default prefix is
returned instead. -/
theorem metadata_env_empty_falls_back :
    List.lookup "env" [("env", "")] = some "" ∧
    get_metadata_env (.ok [("env", "")]) "input.mp3" "prod" = "prod" ∧
    ("prod" : String) ≠ "" := by decide

/-! ### C10: non-mp3 records are skipped with no effects -/

/-- C10: when the (URL-decoded) key of the first S3 record does not end in
`.mp3` case-insensitively, `lambda_handler` returns status 200 with body
`"Skipped non-mp3"` and performs no effect whatsoever — no transcription
job, no provider call, no blob-store write — for any collaborator behaviour
and any number of observed polls. -/
theorem skip_non_mp3 (cfg : HandlerEnv) (w : World) (recordKey : String) (fuel : Nat)
    (h : endsWithMp3 (unquotePlusStr recordKey) = false) :
    lambda_handler cfg w recordKey fuel = some ([], .ok ⟨200, "Skipped non-mp3"⟩) := by
  simp [lambda_handler, h]

/-- Witness for `skip_non_mp3` at the key `"audio_inputs/file.txt"`. -/
theorem skip_non_mp3_witness :
    lambda_handler cfgTest wOk "audio_inputs/file.txt" 0 =
      some ([], .ok ⟨200, "Skipped non-mp3"⟩) :=
  skip_non_mp3 cfgTest wOk "audio_inputs/file.txt" 0 rfl

/-! ### C8: storage key layout -/

/-- The storage-key discipline of the lambda handler: every blob-store write
targets one of the three artifact layouts under the single environment
prefix resolved for the asset; non-write effects are unconstrained. -/
def putKeyOk (env base : String) (langs : List String) : Effect → Prop
  | .put _ k _ =>
      k = env ++ "/transcripts/" ++ base ++ ".txt" ∨
      ∃ lang ∈ langs,
        k = env ++ "/translations/" ++ base ++ "_" ++ lang ++ ".txt" ∨
        k = env ++ "/audio_outputs/" ++ base ++ "_" ++ lang ++ ".mp3"
  | _ => True

/-- Every effect of one per-language iteration respects the key layout. -/
theorem processLanguage_putKeyOk (cfg : HandlerEnv) (w : World)
    (env base transcript lang : String) (langs : List String) (hl : lang ∈ langs) :
    ∀ e ∈ (processLanguage cfg w env base transcript lang).1,
      putKeyOk env base langs e := by
  intro e he
  unfold processLanguage at he
  split at he
  · simp only [List.mem_singleton] at he
    subst he; trivial
  · split at he
    · simp only [List.mem_cons, List.mem_singleton] at he
      rcases he with rfl | rfl | hf
      · trivial
      · exact Or.inr ⟨lang, hl, Or.inl rfl⟩
      · exact absurd hf (List.not_mem_nil e)
    · split at he
      · simp only [List.mem_cons, List.mem_singleton] at he
        rcases he with rfl | rfl | hf
        · trivial
        · exact Or.inr ⟨lang, hl, Or.inl rfl⟩
        · exact absurd hf (List.not_mem_nil e)
      · split at he
        · simp only [List.mem_append, List.mem_cons, List.not_mem_nil,
            or_false] at he
          rcases he with (rfl | rfl) | rfl
          · trivial
          · exact Or.inr ⟨lang, hl, Or.inl rfl⟩
          · trivial
        · simp only [List.mem_append, List.mem_cons, List.not_mem_nil,
            or_false] at he
          rcases he with (rfl | rfl) | rfl | rfl
          · trivial
          · exact Or.inr ⟨lang, hl, Or.inl rfl⟩
          · trivial
          · exact Or.inr ⟨lang, hl, Or.inr rfl⟩

/-- Every effect of the whole per-language loop respects the key layout. -/
theorem processLanguages_putKeyOk (cfg : HandlerEnv) (w : World)
    (env base transcript : String) (langs0 : List String) :
    ∀ (langs : List String), (∀ l ∈ langs, l ∈ langs0) →
      ∀ e ∈ (processLanguages cfg w env base transcript langs).1,
        putKeyOk env base langs0 e := by
  intro langs
  induction langs with
  | nil =>
    intro _ e he
    exact absurd he (List.not_mem_nil e)
  | cons lang rest ih =>
    intro hsub e he
    simp only [processLanguages] at he
    rcases hp : processLanguage cfg w env base transcript lang with ⟨effs, err⟩
    rw [hp] at he
    cases err with
    | some er =>
      exact processLanguage_putKeyOk cfg w env base transcript lang langs0
        (hsub lang (List.mem_cons_self _ _)) e (by rw [hp]; exact he)
    | none =>
      simp only [List.mem_append] at he
      rcases he with he | he
      · exact processLanguage_putKeyOk cfg w env base transcript lang langs0
          (hsub lang (List.mem_cons_self _ _)) e (by rw [hp]; exact he)
      · exact ih (fun l hlr => hsub l (List.mem_cons_of_mem _ hlr)) e he

/-- C8 (amended): in `lambda_handler`, every blob-store write of one run —
transcript, per-language translation, per-language audio — uses the layout
`{env}/transcripts/{stem}.txt`, `{env}/translations/{stem}_{lang}.txt`,
`{env}/audio_outputs/{stem}_{lang}.mp3` with the single environment prefix
resolved for that asset; `AudioProcessor.process_file` in `src/process_a.py`
however writes the same layout *without* any environment prefix. -/
theorem handler_put_keys (cfg : HandlerEnv) (w : World) (recordKey : String)
    (fuel : Nat) (effs : List Effect) (res : Except String HandlerResult)
    (h : lambda_handler cfg w recordKey fuel = some (effs, res)) :
    ∀ e ∈ effs,
      putKeyOk (get_metadata_env w.headEnv (unquotePlusStr recordKey) cfg.envPrefix)
        (baseFilename (unquotePlusStr recordKey)) cfg.targetLanguages e := by
  intro e he
  simp only [lambda_handler] at h
  split at h
  · rw [Option.some.injEq, Prod.mk.injEq] at h
    obtain ⟨h1, -⟩ := h
    subst h1
    exact absurd he (List.not_mem_nil e)
  · split at h
    · exact absurd h (by simp)
    · split at h
      · rw [Option.some.injEq, Prod.mk.injEq] at h
        obtain ⟨h1, -⟩ := h
        subst h1
        simp only [List.mem_singleton] at he
        subst he; trivial
      · split at h
        · split at h <;>
          · rw [Option.some.injEq, Prod.mk.injEq] at h
            obtain ⟨h1, -⟩ := h
            subst h1
            simp only [List.mem_cons] at he
            rcases he with rfl | rfl | he
            · trivial
            · exact Or.inl rfl
            · exact processLanguages_putKeyOk cfg w _ _ _ cfg.targetLanguages
                cfg.targetLanguages (fun l hl => hl) e he
        all_goals
          rw [Option.some.injEq, Prod.mk.injEq] at h
          obtain ⟨h1, -⟩ := h
          subst h1
          simp only [List.mem_singleton] at he
          subst he; trivial

/-- A successful end-to-end handler run with `cfgTest`/`wOk` on key
`"audio_inputs/file.mp3"`: its full effect trace. -/
def handlerEffsTest : List Effect :=
  [Effect.startJob "testenv-file-abcd1234" "testenv/transcripts/testenv-file-abcd1234.json",
   Effect.put "out-bucket" "testenv/transcripts/file.txt" "hi",
   Effect.translateCall "hi" "es",
   Effect.put "out-bucket" "testenv/translations/file_es.txt" "hola",
   Effect.pollyCall "hola" "es" "Lucia",
   Effect.put "out-bucket" "testenv/audio_outputs/file_es.mp3" "AUDIO",
   Effect.translateCall "hi" "fr",
   Effect.put "out-bucket" "testenv/translations/file_fr.txt" "hola",
   Effect.pollyCall "hola" "fr" "Celine",
   Effect.put "out-bucket" "testenv/audio_outputs/file_fr.mp3" "AUDIO"]

/-- Witness for `handler_put_keys`, at the transcript write of the concrete
run. -/
theorem handler_put_keys_witness :
    putKeyOk (get_metadata_env wOk.headEnv (unquotePlusStr "audio_inputs/file.mp3")
        cfgTest.envPrefix)
      (baseFilename (unquotePlusStr "audio_inputs/file.mp3")) cfgTest.targetLanguages
      (Effect.put "out-bucket" "testenv/transcripts/file.txt" "hi") :=
  handler_put_keys cfgTest wOk "audio_inputs/file.mp3" 1 handlerEffsTest
    (.ok ⟨200, "Processed file audio_inputs/file.mp3 in env testenv"⟩) rfl
    (Effect.put "out-bucket" "testenv/transcripts/file.txt" "hi") (by decide)

/-- C8 (counterexample): `AudioProcessor.process_file` writes the transcript
of stem `"song"` to `"transcripts/song.txt"`, which is not of the claimed
form `{env}/transcripts/song.txt` for any environment prefix. -/
theorem processFile_keys_without_env :
    processFile_transcript_key "song" = "transcripts/song.txt" ∧
    ¬ ∃ env : String, "transcripts/song.txt" = env ++ "/transcripts/song.txt" := by
  constructor
  · rfl
  · rintro ⟨env, h⟩
    have hlen := congrArg String.length h
    rw [String.length_append] at hlen
    have h1 : ("transcripts/song.txt" : String).length = 20 := rfl
    have h2 : ("/transcripts/song.txt" : String).length = 21 := rfl
    rw [h1, h2] at hlen
    omega

end MLAP
